import Mathlib

/-!
Verification of the uniform hashing abstraction layer of `rust-fasthash`
(`fasthash/src/hasher.rs` and the per-algorithm adapter modules).

The development shallowly embeds:
* the buffered incremental hashers generated by the `impl_hasher!` and
  `impl_hasher_ext!` macros (`hasher.rs`, lines 282-426);
* the `FastHash` trait's default `hash` method (`hasher.rs`, lines 37-41);
* `StreamHasher::write_stream` (`hasher.rs`, lines 85-122);
* the `From<Seed>` conversions produced by `impl_from_seed!` and the
  `RandomState` build-hasher logic (`hasher.rs`, lines 189-253);
* the native `CityHash64` / `CityHash64WithSeed` entry points and the native
  `XXH32` algorithm (vendored C/C++ sources, modelled and validated against
  the test vectors recorded in `city.rs` and `xx.rs`).

Machine integers are embedded as `Nat` with explicit reduction modulo
`2^32` / `2^64` where the source works with fixed-width types.
Byte strings are `List Nat` whose elements are byte values.
-/

/-- A `FastHash` algorithm marker as seen by the generic layer: the required
`hash_with_seed` method together with the marker's `hash` method
(`hasher.rs`, lines 27-41).  `Value` is embedded as `Nat`. -/
structure HashFamily (σ : Type) where
  hashWithSeed : List Nat → σ → Nat
  hash : List Nat → Nat

/-- The default `hash` implementation of the `FastHash` trait: markers that do
not override `hash` get `hash(bytes) = hash_with_seed(bytes, Default::default())`
(`hasher.rs`, lines 38-40).  `d` is the `Default` value of the seed type. -/
def HashFamily.withDefault {σ : Type} (hws : List Nat → σ → Nat) (d : σ) :
    HashFamily σ :=
  { hashWithSeed := hws, hash := fun bytes => hws bytes d }

/-- The hasher struct generated by `impl_hasher!`: an optional seed and a
byte buffer (`hasher.rs`, lines 286-289). -/
structure BufHasher (σ : Type) where
  seed : Option σ
  bytes : List Nat

namespace BufHasher

/-- `BufHasher::with_capacity_and_seed` (`hasher.rs`, lines 336-341); the
capacity only pre-allocates and does not affect contents. -/
def withCapacityAndSeed {σ : Type} (seed : Option σ) : BufHasher σ :=
  { seed := seed, bytes := [] }

/-- `FastHasher::new` for the generated hasher (`hasher.rs`, lines 317-319). -/
def new {σ : Type} : BufHasher σ := withCapacityAndSeed none

/-- `FastHasher::with_seed` for the generated hasher (`hasher.rs`, lines 322-324). -/
def withSeed {σ : Type} (s : σ) : BufHasher σ := withCapacityAndSeed (some s)

/-- `Hasher::write`: extends the byte buffer (`hasher.rs`, lines 308-310). -/
def write {σ : Type} (h : BufHasher σ) (chunk : List Nat) : BufHasher σ :=
  { h with bytes := h.bytes ++ chunk }

/-- A finite sequence of `write` calls. -/
def writeList {σ : Type} (h : BufHasher σ) (chunks : List (List Nat)) : BufHasher σ :=
  chunks.foldl write h

/-- `Hasher::finish` for `impl_hasher!` hashers (`hasher.rs`, lines 299-306):
hash the whole buffer with the stored seed if present, otherwise with the
marker's `hash`; the final `.into()` conversion to `u64` zero-extends and is
the identity on the embedded `Nat` value. -/
def finish {σ : Type} (F : HashFamily σ) (h : BufHasher σ) : Nat :=
  match h.seed with
  | none => F.hash h.bytes
  | some s => F.hashWithSeed h.bytes s

/-- `Hasher::finish` takes `&self`: embedded as an explicit state-passing call
returning the digest together with the (unchanged) hasher state. -/
def finishCall {σ : Type} (F : HashFamily σ) (h : BufHasher σ) :
    Nat × BufHasher σ :=
  (finish F h, h)

end BufHasher

/-- The hasher struct generated by `impl_hasher_ext!` for wide (128-bit)
algorithms: an optional seed and a byte buffer (`hasher.rs`, lines 354-357). -/
structure ExtBufHasher (σ : Type) where
  seed : Option σ
  bytes : List Nat

namespace ExtBufHasher

/-- `BufHasher::with_capacity_and_seed` (`hasher.rs`, lines 416-421). -/
def withCapacityAndSeed {σ : Type} (seed : Option σ) : ExtBufHasher σ :=
  { seed := seed, bytes := [] }

/-- `FastHasher::new` (`hasher.rs`, lines 397-399). -/
def new {σ : Type} : ExtBufHasher σ := withCapacityAndSeed none

/-- `FastHasher::with_seed` (`hasher.rs`, lines 402-404). -/
def withSeed {σ : Type} (s : σ) : ExtBufHasher σ := withCapacityAndSeed (some s)

/-- `Hasher::write` (`hasher.rs`, lines 381-383). -/
def write {σ : Type} (h : ExtBufHasher σ) (chunk : List Nat) : ExtBufHasher σ :=
  { h with bytes := h.bytes ++ chunk }

/-- A finite sequence of `write` calls. -/
def writeList {σ : Type} (h : ExtBufHasher σ) (chunks : List (List Nat)) :
    ExtBufHasher σ :=
  chunks.foldl write h

/-- The private `finalize` helper (`hasher.rs`, lines 360-366): hash the whole
buffer, yielding the full 128-bit value. -/
def finalize {σ : Type} (F : HashFamily σ) (h : ExtBufHasher σ) : Nat :=
  match h.seed with
  | none => F.hash h.bytes
  | some s => F.hashWithSeed h.bytes s

/-- `HasherExt::finish_ext` (`hasher.rs`, lines 387-390). -/
def finishExt {σ : Type} (F : HashFamily σ) (h : ExtBufHasher σ) : Nat :=
  finalize F h

/-- `Hasher::finish` (`hasher.rs`, lines 377-379): `finalize().low64()`,
the low 64 bits of the 128-bit value. -/
def finish {σ : Type} (F : HashFamily σ) (h : ExtBufHasher σ) : Nat :=
  finalize F h % 18446744073709551616

/-- `finish_ext` takes `&self`: explicit state-passing form. -/
def finishExtCall {σ : Type} (F : HashFamily σ) (h : ExtBufHasher σ) :
    Nat × ExtBufHasher σ :=
  (finishExt F h, h)

end ExtBufHasher

/-- One response of the byte source (`io::Read`) driven by
`StreamHasher::write_stream` (`hasher.rs`, lines 85-122): a successful read
delivering bytes, a transient `Interrupted` failure, or a fatal I/O error
identified by a numeric code.  Exhausting the event list means the source
answers `Ok(0)` (end-of-data) from then on. -/
inductive ReadEvent where
  | data (bytes : List Nat)
  | interrupted
  | ioError (code : Nat)
deriving DecidableEq

/-- Size of one event, for the termination budget of the read loop. -/
def ReadEvent.size : ReadEvent → Nat
  | .data b => b.length + 1
  | .interrupted => 1
  | .ioError _ => 1

/-- Termination budget of the read loop: every loop iteration either consumes
an event or consumes at least one byte of the head `data` event. -/
def streamMeasure : List ReadEvent → Nat
  | [] => 0
  | e :: rest => streamMeasure rest + e.size

/-- The trailing `if pos > 0 { self.write(&buf[..pos]) }` of `write_stream`
(`hasher.rs`, lines 116-118). -/
def finalFlush (buf : List Nat) : List (List Nat) :=
  if buf = [] then [] else [buf]

/-- The loop of `write_stream` (`hasher.rs`, lines 93-120), one fuel unit per
iteration (`writeStream` supplies enough fuel that the cutoff is never hit).
`buf` holds the first `pos` bytes of the 4096-byte buffer and `len` the
running byte count.  Each iteration first flushes a full buffer
(lines 94-97), then performs `r.read(&mut buf[pos..])` (lines 99-113): the
head `data` event yields at most `4096 - pos` bytes (a reader fills at most
the slice it is given; leftovers stay pending), an empty yield is `Ok(0)`
(end-of-data, lines 100-103), `interrupted` is retried (line 108), and
`ioError` stops the loop with that error (lines 109-112).  The first
component collects the arguments of the `write` calls in order. -/
def streamLoop : Nat → List ReadEvent → List Nat → Nat →
    List (List Nat) × Except Nat Nat
  | 0, _, _, _ => ([], Except.error 0)
  | fuel + 1, events, buf, len =>
    let buf0 := if buf.length = 4096 then [] else buf
    let flushed := if buf.length = 4096 then [buf] else []
    match events with
    | [] => (flushed ++ finalFlush buf0, Except.ok len)
    | ReadEvent.interrupted :: rest =>
      let out := streamLoop fuel rest buf0 len
      (flushed ++ out.1, out.2)
    | ReadEvent.ioError code :: _ =>
      (flushed ++ finalFlush buf0, Except.error code)
    | ReadEvent.data b :: rest =>
      let space := 4096 - buf0.length
      if b.take space = [] then
        (flushed ++ finalFlush buf0, Except.ok len)
      else
        let out := streamLoop fuel
          (if b.length ≤ space then rest
           else ReadEvent.data (b.drop space) :: rest)
          (buf0 ++ b.take space) (len + (b.take space).length)
        (flushed ++ out.1, out.2)

/-- `StreamHasher::write_stream` on a fresh 4096-byte buffer (`hasher.rs`,
lines 87-121): the sequence of `write` calls and the returned
`io::Result<usize>`. -/
def writeStream (events : List ReadEvent) : List (List Nat) × Except Nat Nat :=
  streamLoop (streamMeasure events + 1) events [] 0

/-- The first fatal (non-interrupted) error a sequential reader hits. -/
def firstErr : List ReadEvent → Option Nat
  | [] => none
  | ReadEvent.ioError code :: _ => some code
  | _ :: rest => firstErr rest

/-- All bytes a sequential reader delivers before hitting a fatal error. -/
def bytesBeforeStop : List ReadEvent → List Nat
  | [] => []
  | ReadEvent.ioError _ :: _ => []
  | ReadEvent.data b :: rest => b ++ bytesBeforeStop rest
  | ReadEvent.interrupted :: rest => bytesBeforeStop rest

/-- Shape of the `write` calls issued by `write_stream`: every chunk fits the
4096-byte buffer, and every chunk but the last is a full buffer. -/
def goodChunks (ws : List (List Nat)) : Prop :=
  (∀ w ∈ ws, w.length ≤ 4096) ∧ (∀ w ∈ ws.dropLast, w.length = 4096)

/-- A `Seed` (`hasher.rs`, lines 167-187): a value wrapping a pseudo-random
generator state of type `ρ` (the `Xoroshiro128Rng`; kept abstract here, its
stepping function is a parameter everywhere it is needed).  `Seed` is `Copy`
in the source, which the embedding mirrors by passing values. -/
structure Seed (ρ : Type) where
  rng : ρ

/-- Modelled from the spec: `Rand for u64` of the `rand` crate draws one
`next_u64` value from the generator (dependency crate, not under `src/`);
the spec requires small integer seeds to use a prefix of the random stream.
`next64` is the generator's `next_u64`; its output is a `u64`, hence the
reduction modulo `2^64`. -/
def genU64 {ρ : Type} (next64 : ρ → Nat × ρ) (r : ρ) : Nat × ρ :=
  ((next64 r).1 % 18446744073709551616, (next64 r).2)

/-- Modelled from the spec: `Rand for u32` via the generator's `next_u32`,
which the `xoroshiro128` crate implements as `self.next_u64() as u32`, i.e.
the low 32 bits of one draw — exactly the relation asserted by
`tests::test_seed` in `hasher.rs` (`u0 == u1 as u32`). -/
def genU32 {ρ : Type} (next64 : ρ → Nat × ρ) (r : ρ) : Nat × ρ :=
  ((next64 r).1 % 4294967296, (next64 r).2)

/-- Modelled from the spec: `Rand for extprim::u128` draws the high 64 bits
first, then the low 64 bits — the relation asserted by `tests::test_seed`
in `hasher.rs` (`u1 == u2.high64()`). -/
def genU128 {ρ : Type} (next64 : ρ → Nat × ρ) (r : ρ) : Nat × ρ :=
  let hi := (next64 r).1 % 18446744073709551616
  let r1 := (next64 r).2
  let lo := (next64 r1).1 % 18446744073709551616
  (hi * 18446744073709551616 + lo, (next64 r1).2)

/-- Modelled from the spec: `Rand for (u64, u64)` draws two `u64` values in
sequence. -/
def genPair {ρ : Type} (next64 : ρ → Nat × ρ) (r : ρ) : (Nat × Nat) × ρ :=
  let a := genU64 next64 r
  let b := genU64 next64 a.2
  ((a.1, b.1), b.2)

/-- Modelled from the spec: `Rand for (u64, u64, u64, u64)` draws four `u64`
values in sequence. -/
def genQuad {ρ : Type} (next64 : ρ → Nat × ρ) (r : ρ) :
    (Nat × Nat × Nat × Nat) × ρ :=
  let a := genU64 next64 r
  let b := genU64 next64 a.2
  let c := genU64 next64 b.2
  let d := genU64 next64 c.2
  ((a.1, b.1, c.1, d.1), d.2)

/-- `impl_from_seed!(u64)` (`hasher.rs`, lines 189-203): `from` receives the
`Seed` by value (a copy, `Seed` is `Copy`), advances the local copy of the
generator and returns the drawn value.  The caller's `Seed` is untouched,
which the state-passing embedding records by returning `s` itself. -/
def fromSeedU64 {ρ : Type} (next64 : ρ → Nat × ρ) (s : Seed ρ) : Nat × Seed ρ :=
  ((genU64 next64 s.rng).1, s)

/-- `impl_from_seed!(u32)` (`hasher.rs`, line 202). -/
def fromSeedU32 {ρ : Type} (next64 : ρ → Nat × ρ) (s : Seed ρ) : Nat × Seed ρ :=
  ((genU32 next64 s.rng).1, s)

/-- `impl_from_seed!(u128)` (`hasher.rs`, line 204). -/
def fromSeedU128 {ρ : Type} (next64 : ρ → Nat × ρ) (s : Seed ρ) : Nat × Seed ρ :=
  ((genU128 next64 s.rng).1, s)

/-- `impl_from_seed!((u64, u64))` (`hasher.rs`, line 205). -/
def fromSeedPair {ρ : Type} (next64 : ρ → Nat × ρ) (s : Seed ρ) :
    (Nat × Nat) × Seed ρ :=
  ((genPair next64 s.rng).1, s)

/-- `impl_from_seed!((u64, u64, u64, u64))` (`hasher.rs`, line 206). -/
def fromSeedQuad {ρ : Type} (next64 : ρ → Nat × ρ) (s : Seed ρ) :
    (Nat × Nat × Nat × Nat) × Seed ρ :=
  ((genQuad next64 s.rng).1, s)

/-- `RandomState<T>` (`hasher.rs`, lines 230-244): one `Seed` captured at
construction and stored for the lifetime of the value. -/
structure RandomState (ρ : Type) where
  seed : Seed ρ

/-- `BuildHasher::build_hasher` for `RandomState` (`hasher.rs`, lines
246-253): `T::FastHasher::with_seed(self.seed.into())`.  `conv` is the
marker's `From<Seed>` conversion; it receives a copy of the stored seed.
`build_hasher` takes `&self`, embedded by returning the state unchanged. -/
def RandomState.buildHasher {ρ σ : Type} (conv : Seed ρ → σ)
    (rs : RandomState ρ) : BufHasher σ × RandomState ρ :=
  (BufHasher.withSeed (conv rs.seed), rs)

/-- Reduction modulo `2^32` (a `uint32_t` store). -/
def m32 (x : Nat) : Nat := x % 4294967296

/-- Reduction modulo `2^64` (a `uint64_t` store). -/
def m64 (x : Nat) : Nat := x % 18446744073709551616

/-- 32-bit wrapping subtraction. -/
def sub32 (a b : Nat) : Nat :=
  (a % 4294967296 + (4294967296 - b % 4294967296)) % 4294967296

/-- 64-bit wrapping subtraction. -/
def sub64 (a b : Nat) : Nat :=
  (a % 18446744073709551616 + (18446744073709551616 - b % 18446744073709551616)) %
    18446744073709551616

/-- 32-bit rotate left by `r` (`0 < r < 32`). -/
def rotl32 (x r : Nat) : Nat :=
  (m32 x * 2 ^ r + m32 x / 2 ^ (32 - r)) % 4294967296

/-- 64-bit rotate right by `r` (CityHash's `Rotate`; `shift == 0` returns the
value unchanged). -/
def rotr64 (x r : Nat) : Nat :=
  if r = 0 then m64 x
  else (m64 x / 2 ^ r + m64 x * 2 ^ (64 - r)) % 18446744073709551616

/-- Little-endian 32-bit word from four bytes. -/
def word32 (b1 b2 b3 b4 : Nat) : Nat :=
  b1 % 256 + b2 % 256 * 256 + b3 % 256 * 65536 + b4 % 256 * 16777216

/-- Byte `i` of a byte string (reads past the end yield 0; the native code
never reads past the end on the inputs it is called with). -/
def byteAt (s : List Nat) (i : Nat) : Nat := s.getD i 0 % 256

/-- CityHash's unaligned little-endian 32-bit load `Fetch32`. -/
def fetch32 (s : List Nat) (i : Nat) : Nat :=
  word32 (byteAt s i) (byteAt s (i + 1)) (byteAt s (i + 2)) (byteAt s (i + 3))

/-- CityHash's unaligned little-endian 64-bit load `Fetch64`. -/
def fetch64 (s : List Nat) (i : Nat) : Nat :=
  fetch32 s i + fetch32 s (i + 4) * 4294967296

/-- CityHash's `ShiftMix`: `val ^ (val >> 47)`. -/
def shiftMix (x : Nat) : Nat := m64 x ^^^ m64 x / 2 ^ 47

/-- CityHash constant `k0`. -/
def cityK0 : Nat := 0xc3a5c85c97cb3127

/-- CityHash constant `k1`. -/
def cityK1 : Nat := 0xb492b66fbe98f273

/-- CityHash constant `k2`. -/
def cityK2 : Nat := 0x9ae16a3b2f90404f

/-- CityHash constant `k3`. -/
def cityK3 : Nat := 0xc949d7c7509e6557

/-- CityHash constant `kMul` of `Hash128to64`. -/
def cityKMul : Nat := 0x9ddfea08eb382d69

/-- Modelled from the spec: the vendored native `Hash128to64` (CityHash
v1.0.x, compiled by the `fasthash-sys` build step; the C++ sources are a
submodule, not under `src/`). -/
def hash128to64 (lo hi : Nat) : Nat :=
  let a := shiftMix ((lo ^^^ hi) * cityKMul)
  let b := shiftMix ((hi ^^^ a) * cityKMul)
  m64 (b * cityKMul)

/-- The native `HashLen16(u, v) = Hash128to64(uint128(u, v))`. -/
def hashLen16 (u v : Nat) : Nat := hash128to64 u v

/-- Modelled from the spec: the native `HashLen0to16` (CityHash v1.0.x),
validated below against the test vectors in `city.rs`. -/
def hashLen0to16 (s : List Nat) : Nat :=
  if s.length > 8 then
    let a := fetch64 s 0
    let b := fetch64 s (s.length - 8)
    hashLen16 a (rotr64 (b + s.length) s.length) ^^^ b
  else if s.length ≥ 4 then
    let a := fetch32 s 0
    hashLen16 (s.length + a * 8) (fetch32 s (s.length - 4))
  else if s.length > 0 then
    let a := byteAt s 0
    let b := byteAt s (s.length / 2)
    let c := byteAt s (s.length - 1)
    let y := m32 (a + b * 256)
    let z := m32 (s.length + c * 4)
    m64 (shiftMix (m64 (y * cityK2) ^^^ m64 (z * cityK3)) * cityK2)
  else cityK2

/-- Modelled from the spec: the native `HashLen17to32` (CityHash v1.0.x). -/
def hashLen17to32 (s : List Nat) : Nat :=
  let a := m64 (fetch64 s 0 * cityK1)
  let b := fetch64 s 8
  let c := m64 (fetch64 s (s.length - 8) * cityK2)
  let d := m64 (fetch64 s (s.length - 16) * cityK0)
  hashLen16 (rotr64 (sub64 a b) 43 + rotr64 c 30 + d)
    (sub64 (a + rotr64 (b ^^^ cityK3) 20) c + s.length)

/-- Modelled from the spec: the native `WeakHashLen32WithSeeds` on six
words (CityHash v1.0.x). -/
def weakHashWords (w x y z a b : Nat) : Nat × Nat :=
  let a1 := m64 (a + w)
  let b1 := rotr64 (b + a1 + z) 21
  let c := a1
  let a2 := m64 (a1 + x + y)
  let b2 := m64 (b1 + rotr64 a2 44)
  (m64 (a2 + z), m64 (b2 + c))

/-- The native `WeakHashLen32WithSeeds` reading 32 bytes at offset `off`. -/
def weakHashAt (s : List Nat) (off a b : Nat) : Nat × Nat :=
  weakHashWords (fetch64 s off) (fetch64 s (off + 8)) (fetch64 s (off + 16))
    (fetch64 s (off + 24)) a b

/-- Modelled from the spec: the native `HashLen33to64` (CityHash v1.0.x). -/
def hashLen33to64 (s : List Nat) : Nat :=
  let len := s.length
  let z0 := fetch64 s 24
  let a0 := m64 (fetch64 s 0 + (len + fetch64 s (len - 16)) * cityK0)
  let b0 := rotr64 (a0 + z0) 52
  let c0 := rotr64 a0 37
  let a1 := m64 (a0 + fetch64 s 8)
  let c1 := m64 (c0 + rotr64 a1 7)
  let a2 := m64 (a1 + fetch64 s 16)
  let vf := m64 (a2 + z0)
  let vs := m64 (b0 + rotr64 a2 31 + c1)
  let a3 := m64 (fetch64 s 16 + fetch64 s (len - 32))
  let z1 := fetch64 s (len - 8)
  let b1 := rotr64 (a3 + z1) 52
  let c2 := rotr64 a3 37
  let a4 := m64 (a3 + fetch64 s (len - 24))
  let c3 := m64 (c2 + rotr64 a4 7)
  let a5 := m64 (a4 + fetch64 s (len - 16))
  let wf := m64 (a5 + z1)
  let ws := m64 (b1 + rotr64 a5 31 + c3)
  let r := shiftMix ((vf + ws) * cityK2 + (wf + vs) * cityK0)
  m64 (shiftMix (r * cityK0 + vs) * cityK2)

/-- Modelled from the spec: the 64-byte-chunk loop of the native `CityHash64`
for inputs over 64 bytes (CityHash v1.0.x), one recursion step per
iteration; `off` is the current read offset. -/
def cityLoop (s : List Nat) :
    Nat → Nat → Nat → Nat → Nat → Nat × Nat → Nat × Nat →
    Nat × Nat × Nat × (Nat × Nat) × (Nat × Nat)
  | 0, _, x, y, z, v, w => (x, y, z, v, w)
  | iters + 1, off, x, y, z, v, w =>
    let x1 := m64 (rotr64 (x + y + v.1 + fetch64 s (off + 16)) 37 * cityK1)
    let y1 := m64 (rotr64 (y + v.2 + fetch64 s (off + 48)) 42 * cityK1)
    let x2 := x1 ^^^ w.2
    let y2 := y1 ^^^ v.1
    let z1 := rotr64 (z ^^^ w.1) 33
    let v1 := weakHashAt s off (m64 (v.2 * cityK1)) (m64 (x2 + w.1))
    let w1 := weakHashAt s (off + 32) (m64 (z1 + w.2)) y2
    cityLoop s iters (off + 64) z1 y2 x2 v1 w1

/-- Modelled from the spec: the vendored native `CityHash64` entry point
(CityHash v1.0.x; the seedless function called by the overridden
`CityHash64::hash` in `city.rs`, lines 169-172).  Validated below against
the test vectors in `city.rs` (which cover the length classes 4-8 and
9-16). -/
def cityHash64 (s : List Nat) : Nat :=
  let len := s.length
  if len ≤ 32 then
    if len ≤ 16 then hashLen0to16 s else hashLen17to32 s
  else if len ≤ 64 then hashLen33to64 s
  else
    let x := fetch64 s 0
    let y := fetch64 s (len - 16) ^^^ cityK1
    let z := fetch64 s (len - 56) ^^^ cityK0
    let v := weakHashAt s (len - 64) (m64 len) y
    let w := weakHashAt s (len - 32) (m64 (len * cityK1)) cityK0
    let z1 := m64 (z + shiftMix v.2 * cityK1)
    let x1 := m64 (rotr64 (z1 + x) 39 * cityK1)
    let y1 := m64 (rotr64 y 33 * cityK1)
    let st := cityLoop s ((len - 1) / 64) 0 x1 y1 z1 v w
    hashLen16
      (hashLen16 st.2.2.2.1.1 st.2.2.2.2.1 + shiftMix st.2.1 * cityK1 + st.2.2.1)
      (hashLen16 st.2.2.2.1.2 st.2.2.2.2.2 + st.1)

/-- Modelled from the spec: the vendored native `CityHash64WithSeeds`:
`HashLen16(CityHash64(s) - seed0, seed1)`.  Validated below against the
test vector in `city.rs`. -/
def cityHash64WithSeeds (s : List Nat) (seed0 seed1 : Nat) : Nat :=
  hashLen16 (sub64 (cityHash64 s) seed0) (m64 seed1)

/-- Modelled from the spec: the vendored native `CityHash64WithSeed`:
`CityHash64WithSeeds(s, k2, seed)` — the entry point called by
`CityHash64::hash_with_seed` (`city.rs`, lines 174-181). -/
def cityHash64WithSeed (s : List Nat) (seed : Nat) : Nat :=
  cityHash64WithSeeds s cityK2 seed

namespace CityHash64

/-- The `CityHash64` marker's overridden `hash` (`city.rs`, lines 169-172):
it calls the seedless native `CityHash64`, not `hash_with_seed` with the
default seed. -/
def hash (bytes : List Nat) : Nat := cityHash64 bytes

/-- The `CityHash64` marker's `hash_with_seed` (`city.rs`, lines 174-181):
calls the native `CityHash64WithSeed`. -/
def hashWithSeed (bytes : List Nat) (seed : Nat) : Nat :=
  cityHash64WithSeed bytes seed

end CityHash64

/-- xxHash32 prime 1. -/
def xxP1 : Nat := 2654435761

/-- xxHash32 prime 2. -/
def xxP2 : Nat := 2246822519

/-- xxHash32 prime 3. -/
def xxP3 : Nat := 3266489917

/-- xxHash32 prime 4. -/
def xxP4 : Nat := 668265263

/-- xxHash32 prime 5. -/
def xxP5 : Nat := 374761393

/-- Modelled from the spec: the native `XXH32` lane round:
`acc = rotl(acc + lane * PRIME2, 13) * PRIME1`. -/
def xxRound (acc lane : Nat) : Nat :=
  m32 (rotl32 (m32 (acc + lane * xxP2)) 13 * xxP1)

/-- Modelled from the spec: the native `XXH32` main loop over 16-byte
stripes, consuming stripes while at least 16 bytes remain and returning the
four accumulators and the unconsumed tail. -/
def xxStripes : Nat × Nat × Nat × Nat → List Nat →
    (Nat × Nat × Nat × Nat) × List Nat
  | v, b1 :: b2 :: b3 :: b4 :: b5 :: b6 :: b7 :: b8 ::
       b9 :: b10 :: b11 :: b12 :: b13 :: b14 :: b15 :: b16 :: rest =>
    xxStripes
      (xxRound v.1 (word32 b1 b2 b3 b4),
       xxRound v.2.1 (word32 b5 b6 b7 b8),
       xxRound v.2.2.1 (word32 b9 b10 b11 b12),
       xxRound v.2.2.2 (word32 b13 b14 b15 b16)) rest
  | v, rest => (v, rest)

/-- Modelled from the spec: the native `XXH32` 4-byte tail lanes:
`h = rotl(h + lane * PRIME3, 17) * PRIME4`. -/
def xxTail4 : Nat → List Nat → Nat × List Nat
  | h, b1 :: b2 :: b3 :: b4 :: rest =>
    xxTail4 (m32 (rotl32 (m32 (h + word32 b1 b2 b3 b4 * xxP3)) 17 * xxP4)) rest
  | h, rest => (h, rest)

/-- Modelled from the spec: the native `XXH32` byte tail:
`h = rotl(h + byte * PRIME5, 11) * PRIME1`. -/
def xxTail1 : Nat → List Nat → Nat
  | h, [] => h
  | h, b :: rest => xxTail1 (m32 (rotl32 (m32 (h + b % 256 * xxP5)) 11 * xxP1)) rest

/-- Modelled from the spec: the native `XXH32` avalanche finalization; the
result is a `uint32_t`, hence below `2^32`. -/
def xxAvalanche (h : Nat) : Nat :=
  let h1 := m32 ((m32 h ^^^ m32 h / 32768) * xxP2)
  let h2 := m32 ((h1 ^^^ h1 / 8192) * xxP3)
  m32 (h2 ^^^ h2 / 65536)

/-- Modelled from the spec: the native one-shot `XXH32(input, len, seed)`
(vendored C sources compiled by `fasthash-sys`, not under `src/`), validated
below against the test vectors in `xx.rs` (which cover all four phases:
stripes, 4-byte lanes, byte tail, avalanche). -/
def xxh32 (input : List Nat) (seed : Nat) : Nat :=
  let n := input.length
  let start :=
    if n ≥ 16 then
      let sr := xxStripes
        (m32 (seed + xxP1 + xxP2), m32 (seed + xxP2), m32 seed, sub32 seed xxP1)
        input
      (m32 (rotl32 sr.1.1 1 + rotl32 sr.1.2.1 7 + rotl32 sr.1.2.2.1 12 +
        rotl32 sr.1.2.2.2 18), sr.2)
    else (m32 (seed + xxP5), input)
  let t4 := xxTail4 (m32 (start.1 + n)) start.2
  xxAvalanche (xxTail1 t4.1 t4.2)

/-- Modelled from the spec: the native streaming context of `XXHasher32`
(`xx.rs`, lines 142-194) summarized by its reset seed and the bytes consumed
so far.  The native `init/update/digest` triple is not under `src/`; per the
spec's one-shot/incremental equivalence its digest over the consumed bytes
is the one-shot `XXH32` of their concatenation. -/
structure XXHasher32 where
  seed : Nat
  consumed : List Nat

namespace XXHasher32

/-- `XXHasher32::with_seed` (`xx.rs`, lines 151-160): a fresh native state
reset with `seed`. -/
def withSeed (seed : Nat) : XXHasher32 := { seed := seed, consumed := [] }

/-- `XXHasher32::new` (`xx.rs`, lines 146-149): seed 0. -/
def new : XXHasher32 := withSeed 0

/-- `Hasher::write` (`xx.rs`, lines 184-191): `XXH32_update` consumes the
chunk. -/
def write (h : XXHasher32) (bytes : List Nat) : XXHasher32 :=
  { h with consumed := h.consumed ++ bytes }

/-- Modelled from the spec: `XXH32_digest` is a pure function of the
streaming state (finish is callable repeatedly without mutating state). -/
def digest (h : XXHasher32) : Nat := xxh32 h.consumed h.seed

/-- `Hasher::finish` (`xx.rs`, lines 179-181): `XXH32_digest(self.0) as u64`,
taking `&self`; embedded as a state-passing call returning the unchanged
state.  The `as u64` cast zero-extends and is the identity on `Nat`. -/
def finishCall (h : XXHasher32) : Nat × XXHasher32 := (digest h, h)

end XXHasher32

/-- The `XXHash32` marker (`xx.rs`, lines 85-97): `hash_with_seed` is the
native `XXH32`, and `hash` is the trait default (seed `Default::default()`,
i.e. 0). -/
def XXHash32family : HashFamily Nat :=
  HashFamily.withDefault (fun bytes seed => xxh32 bytes seed) 0

/-- The byte string `b"hello"`. -/
def helloBytes : List Nat := [104, 101, 108, 108, 111]

/-- The byte string `b"helloworld"`. -/
def helloworldBytes : List Nat :=
  [104, 101, 108, 108, 111, 119, 111, 114, 108, 100]

/-! ### Validation of the modelled native functions against the test vectors
recorded in the repository (`city.rs` `tests::test_cityhash64`,
`xx.rs` `tests::test_xxh32`). -/

theorem cityHash64_hello_vector :
    cityHash64 helloBytes = 2578220239953316063 := by decide

theorem cityHash64_helloworld_vector :
    cityHash64 helloworldBytes = 16622738483577116029 := by decide

theorem cityHash64_seeded_vector :
    cityHash64WithSeed helloBytes 123 = 11802079543206271427 := by decide

theorem cityHash64_two_seeds_vector :
    cityHash64WithSeeds helloBytes 123 456 = 13699505624668345539 := by decide

theorem xxh32_hello_vector : xxh32 helloBytes 0 = 4211111929 := by decide

theorem xxh32_hello_seeded_vector : xxh32 helloBytes 123 = 2147069998 := by decide

theorem xxh32_helloworld_vector : xxh32 helloworldBytes 0 = 593682946 := by decide

/-! ### Basic lemmas about the buffered hashers. -/

theorem BufHasher.writeList_seed {σ : Type} (h : BufHasher σ)
    (cs : List (List Nat)) : (h.writeList cs).seed = h.seed := by
  induction cs generalizing h with
  | nil => rfl
  | cons c cs ih => simpa [writeList, write] using ih (h.write c)

theorem BufHasher.writeList_bytes {σ : Type} (h : BufHasher σ)
    (cs : List (List Nat)) : (h.writeList cs).bytes = h.bytes ++ cs.flatten := by
  induction cs generalizing h with
  | nil => simp [writeList]
  | cons c cs ih =>
    simp [writeList] at ih ⊢
    rw [ih (h.write c)]
    simp [write]

theorem BufHasher.finish_of_seed {σ : Type} (F : HashFamily σ)
    (h : BufHasher σ) {s : σ} (hs : h.seed = some s) :
    BufHasher.finish F h = F.hashWithSeed h.bytes s := by
  simp [finish, hs]

theorem ExtBufHasher.writeListExt_seed {σ : Type} (h : ExtBufHasher σ)
    (cs : List (List Nat)) : (h.writeList cs).seed = h.seed := by
  induction cs generalizing h with
  | nil => rfl
  | cons c cs ih => simpa [writeList, write] using ih (h.write c)

theorem ExtBufHasher.writeListExt_bytes {σ : Type} (h : ExtBufHasher σ)
    (cs : List (List Nat)) : (h.writeList cs).bytes = h.bytes ++ cs.flatten := by
  induction cs generalizing h with
  | nil => simp [writeList]
  | cons c cs ih =>
    simp [writeList] at ih ⊢
    rw [ih (h.write c)]
    simp [write]

theorem ExtBufHasher.finalize_of_seed {σ : Type} (F : HashFamily σ)
    (h : ExtBufHasher σ) {s : σ} (hs : h.seed = some s) :
    ExtBufHasher.finalize F h = F.hashWithSeed h.bytes s := by
  simp [finalize, hs]

/-- `xxh32` ends in the avalanche reduction modulo `2^32`. -/
theorem xxh32_lt (input : List Nat) (seed : Nat) :
    xxh32 input seed < 4294967296 := by
  unfold xxh32 xxAvalanche m32
  exact Nat.mod_lt _ (by norm_num)

/-- C1: a hasher generated by `impl_hasher!` or `impl_hasher_ext!`, created
with `with_seed(s)`, after any finite sequence of `write` calls returns from
`finish()` (resp. `finish_ext()`) exactly `FastHash::hash_with_seed` applied
to the concatenation of all written chunks and `s`; in particular the result
depends only on the concatenated byte stream, not on the chunk boundaries. -/
theorem buffered_hasher_incremental_eq_oneshot :
    ∀ (σ : Type) (F : HashFamily σ) (s : σ) (chunks : List (List Nat)),
      BufHasher.finish F ((BufHasher.withSeed s).writeList chunks) =
        F.hashWithSeed chunks.flatten s ∧
      ExtBufHasher.finishExt F ((ExtBufHasher.withSeed s).writeList chunks) =
        F.hashWithSeed chunks.flatten s := by
  intro σ F s chunks
  constructor
  · rw [BufHasher.finish_of_seed F _ (by
      rw [BufHasher.writeList_seed]; rfl)]
    rw [BufHasher.writeList_bytes]
    rfl
  · rw [ExtBufHasher.finishExt, ExtBufHasher.finalize_of_seed F _ (by
      rw [ExtBufHasher.writeListExt_seed]; rfl)]
    rw [ExtBufHasher.writeListExt_bytes]
    rfl

/-- C2 (counterexample): the claim "`hash(bytes)` equals
`hash_with_seed(bytes, Default::default())` for every marker" fails for
`CityHash64` at `bytes = b"hello"`: the overridden `hash` calls the seedless
native `CityHash64` (giving 2578220239953316063, the value asserted by
`tests::test_cityhash64`), while `hash_with_seed(b"hello", 0)` calls
`CityHash64WithSeed`, which mixes the seed 0 into the result
(giving 2047853400908042770). -/
theorem cityhash64_hash_ne_hash_with_default_seed :
    CityHash64.hash helloBytes ≠ CityHash64.hashWithSeed helloBytes 0 := by
  decide

/-- C2 (amended): markers that keep the trait's default `hash` implementation
satisfy `hash(bytes) = hash_with_seed(bytes, Default::default())`; but
`CityHash64` overrides `hash` to the seedless native entry point, and its
`hash` differs from `hash_with_seed(bytes, 0)` (witnessed at `b"hello"`). -/
theorem default_hash_delegates_to_default_seed :
    (∀ (σ : Type) (hws : List Nat → σ → Nat) (d : σ) (bytes : List Nat),
      (HashFamily.withDefault hws d).hash bytes =
        (HashFamily.withDefault hws d).hashWithSeed bytes d) ∧
    CityHash64.hash helloBytes ≠ CityHash64.hashWithSeed helloBytes 0 := by
  exact ⟨fun σ hws d bytes => rfl, by decide⟩

/-- C4: `build_hasher` on a `RandomState` never advances the stored seed
(the `Seed` is `Copy` and `build_hasher` takes `&self`), so two successive
`build_hasher` calls on the same instance yield identical hashers, and those
hashers agree on every written input. -/
theorem random_state_build_hasher_reproducible :
    ∀ (ρ σ : Type) (conv : Seed ρ → σ) (F : HashFamily σ)
      (rs : RandomState ρ) (input : List (List Nat)),
      (RandomState.buildHasher conv rs).2 = rs ∧
      (RandomState.buildHasher conv ((RandomState.buildHasher conv rs).2)).1 =
        (RandomState.buildHasher conv rs).1 ∧
      BufHasher.finish F
          (((RandomState.buildHasher conv rs).1).writeList input) =
        BufHasher.finish F
          (((RandomState.buildHasher conv
              ((RandomState.buildHasher conv rs).2)).1).writeList input) := by
  intro ρ σ conv F rs input
  exact ⟨rfl, rfl, rfl⟩

/-- C5: for `impl_hasher_ext!` hashers, `finish()` is the low 64 bits of
`finish_ext()` over the same accumulated input (`finish` is
`finalize().low64()`, `finish_ext` is `finalize()`). -/
theorem ext_hasher_finish_eq_low64_of_finish_ext :
    ∀ (σ : Type) (F : HashFamily σ) (h : ExtBufHasher σ),
      ExtBufHasher.finish F h = ExtBufHasher.finishExt F h % 18446744073709551616 := by
  intro σ F h
  rfl

/-- C6: every `From<Seed>` conversion receives the `Seed` by value (a copy),
so converting the same seed twice yields equal values and leaves the seed's
internal state unchanged, for each of the five target shapes. -/
theorem from_seed_conversions_pure :
    ∀ (ρ : Type) (next64 : ρ → Nat × ρ) (s : Seed ρ),
      (fromSeedU32 next64 s).2 = s ∧
      (fromSeedU32 next64 ((fromSeedU32 next64 s).2)).1 = (fromSeedU32 next64 s).1 ∧
      (fromSeedU64 next64 s).2 = s ∧
      (fromSeedU64 next64 ((fromSeedU64 next64 s).2)).1 = (fromSeedU64 next64 s).1 ∧
      (fromSeedU128 next64 s).2 = s ∧
      (fromSeedU128 next64 ((fromSeedU128 next64 s).2)).1 = (fromSeedU128 next64 s).1 ∧
      (fromSeedPair next64 s).2 = s ∧
      (fromSeedPair next64 ((fromSeedPair next64 s).2)).1 = (fromSeedPair next64 s).1 ∧
      (fromSeedQuad next64 s).2 = s ∧
      (fromSeedQuad next64 ((fromSeedQuad next64 s).2)).1 = (fromSeedQuad next64 s).1 := by
  intro ρ next64 s
  exact ⟨rfl, rfl, rfl, rfl, rfl, rfl, rfl, rfl, rfl, rfl⟩

/-- C7: `finish` (resp. `finish_ext`) may be called repeatedly without an
intervening `write`: it returns the same value each time and leaves the
hasher state unchanged — for `impl_hasher!` hashers, `impl_hasher_ext!`
hashers, and the native-streaming-context `XXHasher32`. -/
theorem finish_idempotent_buffered_and_streaming :
    ∀ (σ : Type) (F : HashFamily σ) (h : BufHasher σ) (g : ExtBufHasher σ)
      (x : XXHasher32),
      (BufHasher.finishCall F h).2 = h ∧
      (BufHasher.finishCall F ((BufHasher.finishCall F h).2)).1 =
        (BufHasher.finishCall F h).1 ∧
      (ExtBufHasher.finishExtCall F g).2 = g ∧
      (ExtBufHasher.finishExtCall F ((ExtBufHasher.finishExtCall F g).2)).1 =
        (ExtBufHasher.finishExtCall F g).1 ∧
      (XXHasher32.finishCall x).2 = x ∧
      (XXHasher32.finishCall ((XXHasher32.finishCall x).2)).1 =
        (XXHasher32.finishCall x).1 := by
  intro σ F h g x
  exact ⟨rfl, rfl, rfl, rfl, rfl, rfl⟩

/-- C8: the scalar seed conversions read a common prefix of the same draw
sequence: the `u32` conversion is the low 32 bits of the `u64` conversion's
draw, and the `u64` conversion is the high 64 bits of the `u128`
conversion — the relations asserted by `tests::test_seed` in `hasher.rs`. -/
theorem seed_scalar_conversions_share_prefix :
    ∀ (ρ : Type) (next64 : ρ → Nat × ρ) (s : Seed ρ),
      (fromSeedU32 next64 s).1 = (fromSeedU64 next64 s).1 % 4294967296 ∧
      (fromSeedU64 next64 s).1 = (fromSeedU128 next64 s).1 / 18446744073709551616 := by
  intro ρ next64 s
  constructor
  · show (next64 s.rng).1 % 4294967296 =
      (next64 s.rng).1 % 18446744073709551616 % 4294967296
    rw [Nat.mod_mod_of_dvd _ (by norm_num)]
  · show (next64 s.rng).1 % 18446744073709551616 =
      ((next64 s.rng).1 % 18446744073709551616 * 18446744073709551616 +
        (next64 (next64 s.rng).2).1 % 18446744073709551616) / 18446744073709551616
    rw [Nat.mul_comm, Nat.mul_add_div (by norm_num),
      Nat.div_eq_of_lt (Nat.mod_lt _ (by norm_num))]
    omega

/-! ### The `write_stream` loop invariant. -/

theorem streamMeasure_eq_zero {events : List ReadEvent}
    (h : streamMeasure events = 0) : events = [] := by
  cases events with
  | nil => rfl
  | cons e rest =>
    exfalso
    have hs : 1 ≤ e.size := by cases e <;> simp [ReadEvent.size]
    simp [streamMeasure] at h
    omega

theorem streamLoop_nil_eq (fuel : Nat) (buf : List Nat) (len : Nat) :
    streamLoop (fuel + 1) [] buf len =
      ((if buf.length = 4096 then [buf] else []) ++
        finalFlush (if buf.length = 4096 then [] else buf), Except.ok len) := rfl

theorem streamLoop_interrupted_eq (fuel : Nat) (rest : List ReadEvent)
    (buf : List Nat) (len : Nat) :
    streamLoop (fuel + 1) (ReadEvent.interrupted :: rest) buf len =
      ((if buf.length = 4096 then [buf] else []) ++
         (streamLoop fuel rest (if buf.length = 4096 then [] else buf) len).1,
       (streamLoop fuel rest (if buf.length = 4096 then [] else buf) len).2) := rfl

theorem streamLoop_ioError_eq (fuel code : Nat) (rest : List ReadEvent)
    (buf : List Nat) (len : Nat) :
    streamLoop (fuel + 1) (ReadEvent.ioError code :: rest) buf len =
      ((if buf.length = 4096 then [buf] else []) ++
        finalFlush (if buf.length = 4096 then [] else buf),
       Except.error code) := rfl

theorem streamLoop_data_eq (fuel : Nat) (b : List Nat) (rest : List ReadEvent)
    (buf : List Nat) (len : Nat) :
    streamLoop (fuel + 1) (ReadEvent.data b :: rest) buf len =
      (if b.take (4096 - (if buf.length = 4096 then ([] : List Nat) else buf).length) = [] then
        ((if buf.length = 4096 then [buf] else []) ++
          finalFlush (if buf.length = 4096 then [] else buf), Except.ok len)
      else
        ((if buf.length = 4096 then [buf] else []) ++
           (streamLoop fuel
             (if b.length ≤ 4096 - (if buf.length = 4096 then ([] : List Nat) else buf).length
              then rest
              else ReadEvent.data
                (b.drop (4096 - (if buf.length = 4096 then ([] : List Nat) else buf).length)) :: rest)
             ((if buf.length = 4096 then [] else buf) ++
               b.take (4096 - (if buf.length = 4096 then ([] : List Nat) else buf).length))
             (len + (b.take (4096 - (if buf.length = 4096 then ([] : List Nat) else buf).length)).length)).1,
         (streamLoop fuel
             (if b.length ≤ 4096 - (if buf.length = 4096 then ([] : List Nat) else buf).length
              then rest
              else ReadEvent.data
                (b.drop (4096 - (if buf.length = 4096 then ([] : List Nat) else buf).length)) :: rest)
             ((if buf.length = 4096 then [] else buf) ++
               b.take (4096 - (if buf.length = 4096 then ([] : List Nat) else buf).length))
             (len + (b.take (4096 - (if buf.length = 4096 then ([] : List Nat) else buf).length)).length)).2)) := rfl

theorem goodChunks_cons {w : List Nat} {ws : List (List Nat)}
    (hw : w.length = 4096) (hws : goodChunks ws) : goodChunks (w :: ws) := by
  obtain ⟨h1, h2⟩ := hws
  constructor
  · intro x hx
    rcases List.mem_cons.mp hx with rfl | hx
    · omega
    · exact h1 x hx
  · intro x hx
    cases ws with
    | nil => simp at hx
    | cons y ys =>
      rw [List.dropLast_cons₂] at hx
      rcases List.mem_cons.mp hx with rfl | hx
      · exact hw
      · exact h2 x hx

theorem goodChunks_flush {buf : List Nat} {ws : List (List Nat)}
    (hws : goodChunks ws) :
    goodChunks ((if buf.length = 4096 then [buf] else []) ++ ws) := by
  by_cases h : buf.length = 4096
  · simpa [h] using goodChunks_cons h hws
  · simpa [h] using hws

theorem flushPrefix_flatten (buf : List Nat) :
    ((if buf.length = 4096 then [buf] else []) : List (List Nat)).flatten ++
      (if buf.length = 4096 then ([] : List Nat) else buf) = buf := by
  by_cases h : buf.length = 4096 <;> simp [h]

theorem buf0_length_lt {buf : List Nat} (hbuf : buf.length ≤ 4096) :
    (if buf.length = 4096 then ([] : List Nat) else buf).length < 4096 := by
  by_cases h : buf.length = 4096
  · simp [h]
  · simp only [h, if_false]
    omega

theorem terminalChunks (buf : List Nat) (hbuf : buf.length ≤ 4096) :
    ((if buf.length = 4096 then [buf] else []) ++
        finalFlush (if buf.length = 4096 then [] else buf)).flatten = buf ∧
      goodChunks ((if buf.length = 4096 then [buf] else []) ++
        finalFlush (if buf.length = 4096 then [] else buf)) := by
  by_cases h : buf.length = 4096
  · simp [h, finalFlush, goodChunks]
  · by_cases hb : buf = []
    · simp [h, hb, finalFlush, goodChunks]
    · simp [h, hb, finalFlush, goodChunks, hbuf]

theorem flatten_flush (buf : List Nat) (ws : List (List Nat)) (tail : List Nat)
    (hws : ws.flatten = (if buf.length = 4096 then ([] : List Nat) else buf) ++ tail) :
    ((if buf.length = 4096 then [buf] else []) ++ ws).flatten = buf ++ tail := by
  by_cases h : buf.length = 4096 <;> simp [h] at hws ⊢ <;> simp [hws]

theorem streamLoop_spec (fuel : Nat) :
    ∀ (events : List ReadEvent) (buf : List Nat) (len : Nat),
      streamMeasure events ≤ fuel → buf.length ≤ 4096 →
      (∀ e ∈ events, e ≠ ReadEvent.data []) →
      (streamLoop (fuel + 1) events buf len).2 =
          (match firstErr events with
           | none => Except.ok (len + (bytesBeforeStop events).length)
           | some code => Except.error code) ∧
        (streamLoop (fuel + 1) events buf len).1.flatten =
          buf ++ bytesBeforeStop events ∧
        goodChunks (streamLoop (fuel + 1) events buf len).1 := by
  induction fuel with
  | zero =>
    intro events buf len hfuel hbuf hne
    have hev : events = [] := streamMeasure_eq_zero (Nat.le_zero.mp hfuel)
    subst hev
    rw [streamLoop_nil_eq]
    exact ⟨by simp [firstErr, bytesBeforeStop],
      by simpa [bytesBeforeStop] using (terminalChunks buf hbuf).1,
      (terminalChunks buf hbuf).2⟩
  | succ n ih =>
    intro events buf len hfuel hbuf hne
    cases events with
    | nil =>
      rw [streamLoop_nil_eq]
      exact ⟨by simp [firstErr, bytesBeforeStop],
        by simpa [bytesBeforeStop] using (terminalChunks buf hbuf).1,
        (terminalChunks buf hbuf).2⟩
    | cons e rest =>
      have hne_rest : ∀ x ∈ rest, x ≠ ReadEvent.data [] :=
        fun x hx => hne x (List.mem_cons_of_mem _ hx)
      have hlt : (if buf.length = 4096 then ([] : List Nat) else buf).length < 4096 :=
        buf0_length_lt hbuf
      cases e with
      | interrupted =>
        have hm : streamMeasure rest ≤ n := by
          simp [streamMeasure, ReadEvent.size] at hfuel
          omega
        obtain ⟨h1, h2, h3⟩ := ih rest _ len hm (le_of_lt hlt) hne_rest
        rw [streamLoop_interrupted_eq]
        refine ⟨by simpa [firstErr, bytesBeforeStop] using h1, ?_, goodChunks_flush h3⟩
        simp only [bytesBeforeStop]
        exact flatten_flush buf _ _ h2
      | ioError code =>
        rw [streamLoop_ioError_eq]
        exact ⟨by simp [firstErr],
          by simpa [bytesBeforeStop] using (terminalChunks buf hbuf).1,
          (terminalChunks buf hbuf).2⟩
      | data b =>
        have hb : b ≠ [] := by
          intro hempty
          exact hne (ReadEvent.data b) (List.mem_cons_self _ _) (by rw [hempty])
        have hspace : 0 < 4096 - (if buf.length = 4096 then ([] : List Nat) else buf).length := by
          omega
        have htake : ¬ (b.take (4096 -
            (if buf.length = 4096 then ([] : List Nat) else buf).length) = []) := by
          rw [List.take_eq_nil_iff]
          push_neg
          exact ⟨by omega, hb⟩
        rw [streamLoop_data_eq, if_neg htake]
        have hfuel2 : streamMeasure rest + b.length ≤ n := by
          simp [streamMeasure, ReadEvent.size] at hfuel
          omega
        by_cases hle : b.length ≤ 4096 -
            (if buf.length = 4096 then ([] : List Nat) else buf).length
        · rw [if_pos hle, List.take_of_length_le hle]
          have hlen2 : ((if buf.length = 4096 then ([] : List Nat) else buf) ++ b).length ≤ 4096 := by
            simp only [List.length_append]
            omega
          obtain ⟨h1, h2, h3⟩ := ih rest _ (len + b.length)
            (le_trans (Nat.le_add_right _ _) hfuel2) hlen2 hne_rest
          refine ⟨?_, ?_, goodChunks_flush h3⟩
          · rw [h1]
            simp only [firstErr, bytesBeforeStop]
            cases firstErr rest <;> simp [Nat.add_assoc]
          · simp only [bytesBeforeStop]
            refine flatten_flush buf _ _ ?_
            rw [h2, List.append_assoc]
        · rw [if_neg hle]
          have hdrop : b.drop (4096 -
              (if buf.length = 4096 then ([] : List Nat) else buf).length) ≠ [] := by
            rw [Ne, List.drop_eq_nil_iff]
            omega
          have hne2 : ∀ x ∈ ReadEvent.data (b.drop (4096 -
              (if buf.length = 4096 then ([] : List Nat) else buf).length)) :: rest,
              x ≠ ReadEvent.data [] := by
            intro x hx
            rcases List.mem_cons.mp hx with rfl | hx
            · intro hcon
              exact hdrop (ReadEvent.data.inj hcon)
            · exact hne_rest x hx
          have htlen : (b.take (4096 -
              (if buf.length = 4096 then ([] : List Nat) else buf).length)).length =
              4096 - (if buf.length = 4096 then ([] : List Nat) else buf).length := by
            simp only [List.length_take]
            omega
          have hm2 : streamMeasure (ReadEvent.data (b.drop (4096 -
              (if buf.length = 4096 then ([] : List Nat) else buf).length)) :: rest) ≤ n := by
            simp only [streamMeasure, ReadEvent.size, List.length_drop]
            omega
          have hlen2 : ((if buf.length = 4096 then ([] : List Nat) else buf) ++
              b.take (4096 -
                (if buf.length = 4096 then ([] : List Nat) else buf).length)).length ≤ 4096 := by
            simp only [List.length_append, htlen]
            omega
          obtain ⟨h1, h2, h3⟩ := ih _ _ _ hm2 hlen2 hne2
          refine ⟨?_, ?_, goodChunks_flush h3⟩
          · rw [h1]
            simp only [firstErr, bytesBeforeStop, List.length_append, List.length_drop, htlen]
            cases firstErr rest <;> simp <;> omega
          · simp only [bytesBeforeStop]
            refine flatten_flush buf _ _ ?_
            rw [h2]
            simp only [bytesBeforeStop, List.append_assoc]
            rw [← List.append_assoc (b.take _), List.take_append_drop]

/-- C3: `write_stream` reads into a fixed 4096-byte buffer (every forwarded
chunk has length at most 4096, and every chunk but the final partial one is
a full 4096-byte buffer), silently retries `Interrupted` reads, and returns
`Ok(n)` with `n` the total number of bytes consumed when the reader signals
end-of-data, or the first non-interrupted I/O error.  The hypothesis rules
out readers that signal end-of-data by an empty yield in the middle of the
event list (an empty read is the end-of-data signal itself). -/
theorem write_stream_result_spec :
    ∀ events : List ReadEvent, (∀ e ∈ events, e ≠ ReadEvent.data []) →
      (writeStream events).2 =
        (match firstErr events with
         | none => Except.ok (bytesBeforeStop events).length
         | some code => Except.error code) ∧
      (∀ w ∈ (writeStream events).1, w.length ≤ 4096) ∧
      (∀ w ∈ (writeStream events).1.dropLast, w.length = 4096) ∧
      writeStream (ReadEvent.interrupted :: events) = writeStream events := by
  intro events hne
  obtain ⟨h1, h2, h3⟩ :=
    streamLoop_spec (streamMeasure events) events [] 0 (le_refl _) (by simp) hne
  refine ⟨?_, h3.1, h3.2, rfl⟩
  rw [writeStream, h1]
  cases firstErr events <;> simp

/-- C3 witness: the specification evaluated on the concrete reader that
yields three bytes, reports one transient interruption, then two more
bytes before end-of-data. -/
theorem write_stream_result_spec_witness :
    (∀ e ∈ [ReadEvent.data [1, 2, 3], ReadEvent.interrupted, ReadEvent.data [4, 5]],
        e ≠ ReadEvent.data []) ∧
    ((writeStream [ReadEvent.data [1, 2, 3], ReadEvent.interrupted, ReadEvent.data [4, 5]]).2 =
        (match firstErr [ReadEvent.data [1, 2, 3], ReadEvent.interrupted, ReadEvent.data [4, 5]] with
         | none => Except.ok
            (bytesBeforeStop [ReadEvent.data [1, 2, 3], ReadEvent.interrupted, ReadEvent.data [4, 5]]).length
         | some code => Except.error code) ∧
      (∀ w ∈ (writeStream [ReadEvent.data [1, 2, 3], ReadEvent.interrupted, ReadEvent.data [4, 5]]).1,
          w.length ≤ 4096) ∧
      (∀ w ∈ (writeStream [ReadEvent.data [1, 2, 3], ReadEvent.interrupted, ReadEvent.data [4, 5]]).1.dropLast,
          w.length = 4096) ∧
      writeStream (ReadEvent.interrupted ::
          [ReadEvent.data [1, 2, 3], ReadEvent.interrupted, ReadEvent.data [4, 5]]) =
        writeStream [ReadEvent.data [1, 2, 3], ReadEvent.interrupted, ReadEvent.data [4, 5]]) :=
  ⟨by decide, write_stream_result_spec _ (by decide)⟩

/-- C9: whenever `write_stream` returns — with `Ok` or with `Err` — the
concatenation of all chunks forwarded to `write` is exactly the byte
sequence successfully read from the reader; in particular, on the error
path the partial buffer is still flushed before the error is returned. -/
theorem write_stream_no_byte_dropped :
    ∀ events : List ReadEvent, (∀ e ∈ events, e ≠ ReadEvent.data []) →
      (writeStream events).1.flatten = bytesBeforeStop events := by
  intro events hne
  have h :=
    (streamLoop_spec (streamMeasure events) events [] 0 (le_refl _) (by simp) hne).2.1
  simpa [writeStream] using h

/-- C9 witness: on the concrete reader that yields two bytes and then fails,
the two bytes are still flushed to `write` before the error is returned. -/
theorem write_stream_no_byte_dropped_witness :
    (∀ e ∈ [ReadEvent.data [9, 9], ReadEvent.ioError 3, ReadEvent.data [1]],
        e ≠ ReadEvent.data []) ∧
    (writeStream [ReadEvent.data [9, 9], ReadEvent.ioError 3, ReadEvent.data [1]]).1.flatten =
      bytesBeforeStop [ReadEvent.data [9, 9], ReadEvent.ioError 3, ReadEvent.data [1]] :=
  ⟨by decide, write_stream_no_byte_dropped _ (by decide)⟩

/-- C10: for an algorithm whose output type is `u32`, the buffered hasher's
`finish` returns the 32-bit hash value (the `u32 → u64` conversion
zero-extends, i.e. is the identity on the embedded `Nat`), hence a value
below `2^32`; and `XXHasher32::finish` returns `XXH32_digest(..) as u64`,
the 32-bit digest itself, also below `2^32`. -/
theorem u32_hasher_finish_zero_extended :
    ∀ (σ : Type) (F : HashFamily σ) (h : BufHasher σ) (x : XXHasher32),
      (∀ bytes s, F.hashWithSeed bytes s < 4294967296) →
      (∀ bytes, F.hash bytes < 4294967296) →
      BufHasher.finish F h < 4294967296 ∧
      (XXHasher32.finishCall x).1 = xxh32 x.consumed x.seed ∧
      (XXHasher32.finishCall x).1 < 4294967296 := by
  intro σ F h x hws hh
  refine ⟨?_, rfl, xxh32_lt _ _⟩
  simp only [BufHasher.finish]
  split
  · exact hh _
  · exact hws _ _

/-- C10 witness: the bounds instantiated with the `XXHash32` marker (whose
outputs are the `XXH32` values, all below `2^32`) and concrete hashers. -/
theorem u32_hasher_finish_zero_extended_witness :
    (∀ bytes s, XXHash32family.hashWithSeed bytes s < 4294967296) ∧
    (∀ bytes, XXHash32family.hash bytes < 4294967296) ∧
    (BufHasher.finish XXHash32family (BufHasher.withSeed 9) < 4294967296 ∧
     (XXHasher32.finishCall (XXHasher32.withSeed 9)).1 =
       xxh32 (XXHasher32.withSeed 9).consumed (XXHasher32.withSeed 9).seed ∧
     (XXHasher32.finishCall (XXHasher32.withSeed 9)).1 < 4294967296) :=
  ⟨fun bytes s => xxh32_lt bytes s, fun bytes => xxh32_lt bytes 0,
   u32_hasher_finish_zero_extended Nat XXHash32family (BufHasher.withSeed 9)
     (XXHasher32.withSeed 9) (fun bytes s => xxh32_lt bytes s)
     (fun bytes => xxh32_lt bytes 0)⟩
